import Mathlib

/-!
Verification of the Sakshya evidence-session engine against its
natural-language specification.

The development is a shallow embedding of the client-side session code
(`src/components/ChatInterface.tsx`, `src/components/AnalysisView.tsx`,
`src/hooks/useFileHash.ts`, `src/hooks/useChatHistory.ts`).  JavaScript
numbers are modelled as `JSNum` (a rational or NaN); JavaScript values that
may be a number, a string or `undefined` are modelled as `TsInput`; the
`Number(string)` and `parseFloat(string)` coercions are modelled for the
decimal forms (optional sign, digits, optional fractional part) that the
code feeds them.  Stateful React code is modelled as explicit state-passing
functions over the session record, with the external collaborators
(hashing, storage upload, inference, persistence) supplied as oracles and
the calls made to them recorded in an explicit log.
-/

set_option autoImplicit false

-- The core `Rat` arithmetic operations are sealed (irreducible); re-open
-- them so that concrete runs of the embedded code evaluate with `decide`.
set_option allowUnsafeReducibility true
attribute [local semireducible] Rat.mul Rat.add Rat.sub Rat.div Rat.neg Rat.inv

deriving instance DecidableEq for Except

namespace Sakshya

/-- A JavaScript number: either an exact rational or NaN.  (The code never
produces infinities on the modelled paths.) -/
inductive JSNum where
  | nan
  | num (q : ℚ)
deriving DecidableEq, Repr

/-- JS addition: NaN propagates. -/
def JSNum.add : JSNum → JSNum → JSNum
  | .num a, .num b => .num (a + b)
  | _, _ => .nan

/-- JS multiplication: NaN propagates.  (No zero-times-infinity cases arise.) -/
def JSNum.mul : JSNum → JSNum → JSNum
  | .num a, .num b => .num (a * b)
  | _, _ => .nan

/-- JS subtraction: NaN propagates. -/
def JSNum.sub : JSNum → JSNum → JSNum
  | .num a, .num b => .num (a - b)
  | _, _ => .nan

/-- `Math.abs`: NaN propagates. -/
def JSNum.abs : JSNum → JSNum
  | .nan => .nan
  | .num q => .num |q|

/-- JS `<` as a boolean: any comparison with NaN is false. -/
def JSNum.ltB : JSNum → JSNum → Bool
  | .num a, .num b => decide (a < b)
  | _, _ => false

/-- JS truthiness of a number: `0` and `NaN` are falsy. -/
def JSNum.truthy : JSNum → Bool
  | .nan => false
  | .num q => decide (q ≠ 0)

/-- A JS value that may be `undefined`, a number or a string: the type of
the raw timestamp-like fields handed to the normaliser. -/
inductive TsInput where
  | undef
  | num (x : JSNum)
  | str (s : String)
deriving DecidableEq, Repr

/-- JS truthiness of a `TsInput` value. -/
def TsInput.truthy : TsInput → Bool
  | .undef => false
  | .num x => x.truthy
  | .str s => decide (s ≠ "")

/-- JS `a || b` on raw field values. -/
def jsOr (a b : TsInput) : TsInput := if a.truthy then a else b

/-- JS `a || b` where `a` is an optional string and `b` a string default
(`""` is falsy). -/
def jsOrStr (a : Option String) (b : String) : String :=
  match a with
  | some s => if s = "" then b else s
  | none => b

/-- Value of a digit string read left to right. -/
def digitsVal (cs : List Char) : ℕ :=
  cs.foldl (fun n c => 10 * n + (c.toNat - 48)) 0

/-- Strip leading and trailing whitespace, as the JS number coercions do. -/
def trimChars (cs : List Char) : List Char :=
  ((cs.dropWhile Char.isWhitespace).reverse.dropWhile Char.isWhitespace).reverse

/-- Value of an unsigned decimal literal `digits[.digits]` (at least one
digit overall), or `none` if the characters are not of that shape. -/
def decimalValue? (cs : List Char) : Option ℚ :=
  let ip := cs.takeWhile Char.isDigit
  let rest := cs.dropWhile Char.isDigit
  match rest with
  | [] => if ip.isEmpty then none else some (digitsVal ip : ℚ)
  | '.' :: frac =>
      if frac.all Char.isDigit ∧ ¬(ip.isEmpty ∧ frac.isEmpty) then
        some ((digitsVal ip : ℚ) + (digitsVal frac : ℚ) / (10 : ℚ) ^ frac.length)
      else none
  | _ => none

/-- `Number(string)` on the decimal forms the code feeds it: trims
whitespace, the empty string is `0`, an optionally signed decimal literal
is its value, anything else is NaN. -/
def jsNumberOfChars (cs : List Char) : JSNum :=
  match trimChars cs with
  | [] => .num 0
  | '-' :: rest =>
      match decimalValue? rest with
      | some q => .num (-q)
      | none => .nan
  | '+' :: rest =>
      match decimalValue? rest with
      | some q => .num q
      | none => .nan
  | t =>
      match decimalValue? t with
      | some q => .num q
      | none => .nan

/-- `String.prototype.split(sep)` for a single-character separator, on the
character list: `"" ↦ [""]`, `":" ↦ ["", ""]`, `"a:b" ↦ ["a", "b"]`. -/
def splitChar (sep : Char) : List Char → List (List Char)
  | [] => [[]]
  | c :: rest =>
      let r := splitChar sep rest
      if c = sep then [] :: r
      else
        match r with
        | [] => [[c]]
        | h :: t => (c :: h) :: t

/-- `parseFloat` on the forms the code feeds it: longest optionally signed
decimal prefix of the trimmed string, NaN when there is none; a number
argument is returned unchanged (its string round-trip); `undefined`
stringifies to a non-numeric word, hence NaN. -/
def parseFloatJS : TsInput → JSNum
  | .num x => x
  | .undef => .nan
  | .str s =>
      let t := trimChars s.data
      let signed : Bool × List Char :=
        match t with
        | '-' :: r => (true, r)
        | '+' :: r => (false, r)
        | r => (false, r)
      let ip := signed.2.takeWhile Char.isDigit
      let rest := signed.2.dropWhile Char.isDigit
      let frac :=
        match rest with
        | '.' :: r => r.takeWhile Char.isDigit
        | _ => []
      if ip.isEmpty ∧ frac.isEmpty then .nan
      else
        let v : ℚ := (digitsVal ip : ℚ) + (digitsVal frac : ℚ) / (10 : ℚ) ^ frac.length
        .num (if signed.1 then -v else v)

/-- `parseTimestampToSeconds` from `ChatInterface.tsx`: a number is
returned as-is; a falsy input yields `0`; otherwise the string is split on
`:` and each part coerced with `Number`, with `h*3600 + m*60 + s` for three
parts, `m*60 + s` for two, and the first part alone otherwise. -/
def parseTimestampToSeconds : TsInput → JSNum
  | .num x => x
  | .undef => .num 0
  | .str s =>
      if s = "" then .num 0
      else
        let parts := (splitChar ':' s.data).map jsNumberOfChars
        match parts with
        | [h, m, sec] => ((h.mul (.num 3600)).add (m.mul (.num 60))).add sec
        | [m, sec] => (m.mul (.num 60)).add sec
        | [x] => x
        | x :: _ => x
        | [] => .num 0

/-- A displayed finding, `TimelineEvent` from `types.ts`.  Its numeric
fields hold whatever JS numbers the normalisers produced. -/
structure TimelineEvent where
  fromTimestamp : JSNum
  toTimestamp : JSNum
  summary : String
  confidence : JSNum
deriving DecidableEq, Repr

/-- One persisted bookmark as returned by `fetchSaved`: the Firestore
document id together with the saved event fields the reconciler reads. -/
structure SavedDoc where
  docId : String
  fromTimestamp : JSNum
  summary : String
deriving DecidableEq, Repr

/-- The match condition of `restoreSavedState` in `AnalysisView.tsx`:
`Math.abs(saved.fromTimestamp - event.fromTimestamp) < 0.1 &&
saved.summary === event.summary`. -/
def bmMatches (saved : SavedDoc) (e : TimelineEvent) : Bool :=
  ((saved.fromTimestamp.sub e.fromTimestamp).abs.ltB (.num (1 / 10))) &&
    saved.summary == e.summary

/-- `restoreSavedState`: for each displayed event (by position in the
session's flat event list) the cached document id of the first matching
bookmark, if any.  The code stores the result as an index-keyed object
`restoredMap`; positionally-indexed options are the same map. -/
def restoreSavedState (events : List TimelineEvent) (savedDocs : List SavedDoc) :
    List (Option String) :=
  events.map fun e => (savedDocs.find? fun s => bmMatches s e).map (·.docId)

/-- The spec-level match condition: the bookmark's `fromTime` differs from
the event's by strictly less than `0.1` and the summaries are exactly
equal (both times being actual numbers, not NaN). -/
def specMatch (saved : SavedDoc) (e : TimelineEvent) : Prop :=
  (∃ qs qe : ℚ, saved.fromTimestamp = .num qs ∧ e.fromTimestamp = .num qe ∧
      |qs - qe| < 1 / 10) ∧
    saved.summary = e.summary

/-- One raw finding as handed back by the inference collaborator.  The
time-like fields are arbitrary JS values (absent, number or string); the
text fields are absent or strings; `confidence` is absent or a number.
Lean reserves `from`, `end` and `to`, so those fields are suffixed. -/
structure RawFinding where
  start : TsInput
  timestamp : TsInput
  fromField : TsInput
  endField : TsInput
  toField : TsInput
  description : Option String
  summary : Option String
  confidence : Option JSNum
deriving DecidableEq, Repr

/-- `t.confidence || fallback`. -/
def confOr (c : Option JSNum) (fallback : ℚ) : JSNum :=
  match c with
  | some x => if x.truthy then x else .num fallback
  | none => .num fallback

/-- The normalisation of one raw finding on the initial-analysis path
(`handleSubmit` in `ChatInterface.tsx`):
`{ fromTimestamp: parseTimestampToSeconds(t.start || t.timestamp || t.from),
   toTimestamp: parseTimestampToSeconds(t.end || t.to),
   summary: t.description || t.summary || "Event Detected",
   confidence: t.confidence || 0.9 }`. -/
def formatEvent (t : RawFinding) : TimelineEvent where
  fromTimestamp := parseTimestampToSeconds (jsOr t.start (jsOr t.timestamp t.fromField))
  toTimestamp := parseTimestampToSeconds (jsOr t.endField t.toField)
  summary := jsOrStr t.description (jsOrStr t.summary "Event Detected")
  confidence := confOr t.confidence (9 / 10)

/-- The time normaliser of the follow-up path (`handleFollowUpSubmit` in
`AnalysisView.tsx`): `typeof v === 'number' ? v : parseFloat(v) || 0`. -/
def fuTime (v : TsInput) : JSNum :=
  match v with
  | .num x => x
  | v => if (parseFloatJS v).truthy then parseFloatJS v else .num 0

/-- The normalisation of one raw finding on the follow-up path
(`handleFollowUpSubmit` in `AnalysisView.tsx`). -/
def formatEventFU (t : RawFinding) : TimelineEvent where
  fromTimestamp := fuTime t.fromField
  toTimestamp := fuTime t.toField
  summary := jsOrStr t.summary "Event Detected"
  confidence := confOr t.confidence 1

/-- The data-model invariant `0 ≤ fromTime ≤ toTime` as a decidable check:
both bounds are actual numbers in the stated order. -/
def ordOK (e : TimelineEvent) : Bool :=
  match e.fromTimestamp, e.toTimestamp with
  | .num a, .num b => decide (0 ≤ a ∧ a ≤ b)
  | _, _ => false

/-- Session lifecycle status, from `types.ts`. -/
inductive Status where
  | idle
  | uploading
  | analyzing
  | ready
  | error
deriving DecidableEq, Repr

/-- Message author, `'user' | 'ai'` in `types.ts`. -/
inductive Role where
  | user
  | ai
deriving DecidableEq, Repr

/-- `analysisData` attached to a resolved assistant message. -/
structure AnalysisData where
  events : List TimelineEvent
  summary : Option String
  confidence : ℚ
deriving DecidableEq, Repr

/-- `ChatMessage` from `types.ts`. -/
structure ChatMessage where
  id : String
  role : Role
  text : String
  timestamp : ℕ
  isLoading : Bool
  analysisData : Option AnalysisData
deriving DecidableEq, Repr

/-- `VideoSession` from `types.ts`. -/
structure VideoSession where
  id : String
  videoUrl : Option String
  videoName : String
  hash : Option String
  status : Status
  events : List TimelineEvent
  gcsUri : Option String
  chatHistory : List ChatMessage
deriving DecidableEq, Repr

/-- JS truthiness of an optional string field (absent or `""` is falsy). -/
def strTruthy : Option String → Bool
  | none => false
  | some s => decide (s ≠ "")

/-- The attached file: name and content bytes. -/
structure FileModel where
  name : String
  content : List ℕ
deriving DecidableEq, Repr

/-- The argument object of the `getTimestampsFromGemini` callable. -/
structure InferRequest where
  storageUri : Option String
  userPrompt : String
  model : String
deriving DecidableEq, Repr

/-- The inference collaborator's response: both fields may be absent. -/
structure InferResponse where
  timestamps : Option (List RawFinding)
  description : Option String
deriving DecidableEq, Repr

/-- The external collaborators of one submission, as oracles: the digest
function (which may reject), whether the storage upload succeeds, the
download URL it returns, the storage bucket name, and the inference
outcome. -/
structure SubmitEnv where
  hashResult : List ℕ → Except Unit String
  uploadOk : Bool
  downloadUrl : String
  bucket : String
  inferResult : Except Unit InferResponse

/-- Record of the external calls one `handleSubmit` run makes. -/
structure SubmitLog where
  hashCalled : Option (List ℕ) := none
  uploadedKey : Option String := none
  inferRequest : Option InferRequest := none
  errorMsg : Option String := none
deriving DecidableEq, Repr

/-- The user message appended on submission. -/
def mkUserMsg (prompt : String) (now : ℕ) : ChatMessage :=
  ⟨toString now, .user, prompt, now, false, none⟩

/-- The optimistic pending assistant message appended on submission
(`id = (Date.now() + 1).toString()`, `isLoading: true`). -/
def mkPendingAiMsg (now : ℕ) : ChatMessage :=
  ⟨toString (now + 1), .ai, "", now, true, none⟩

/-- The synchronous prefix of `handleSubmit`: the guards (`!prompt`,
`!selectedFile && !session.gcsUri`) and the atomic append of the user turn
and the pending assistant placeholder.  The remainder of `handleSubmit`
runs asynchronously after this state is already visible. -/
def submitStart (s : VideoSession) (prompt : String) (selectedFile : Option FileModel)
    (now : ℕ) : VideoSession :=
  if prompt = "" then s
  else if selectedFile.isNone && !strTruthy s.gcsUri then s
  else { s with chatHistory := s.chatHistory ++ [mkUserMsg prompt now, mkPendingAiMsg now] }

/-- The `catch` branch of `handleSubmit`: resolve the pending assistant
message in place with the failure text, touching nothing else. -/
def catchResolve (aiMsgId : String) (s : VideoSession) : VideoSession :=
  { s with
    chatHistory := s.chatHistory.map fun m =>
      if m.id = aiMsgId then { m with isLoading := false, text := "Failed to analyze video." }
      else m }

/-- Resolution of the pending assistant message on success: set the text
and attach the normalised findings batch. -/
def resolveOk (aiMsgId text : String) (ad : AnalysisData) (h : List ChatMessage) :
    List ChatMessage :=
  h.map fun m =>
    if m.id = aiMsgId then { m with isLoading := false, text := text, analysisData := some ad }
    else m

/-- The inference stage of `handleSubmit`: issue the request, then either
resolve the pending turn with the formatted events, leave it pending when
the response carries no `timestamps` field, or fall into the catch. -/
def runInference (env : SubmitEnv) (s : VideoSession) (prompt modelId aiMsgId : String)
    (storageUri : Option String) (log : SubmitLog) : VideoSession × SubmitLog :=
  let log2 := { log with inferRequest := some ⟨storageUri, prompt, modelId⟩ }
  match env.inferResult with
  | .error _ => (catchResolve aiMsgId s, { log2 with errorMsg := some "Connection failed." })
  | .ok data =>
      match data.timestamps with
      | none => (s, log2)
      | some ts =>
          let events := ts.map formatEvent
          let text := jsOrStr data.description
            ("Found " ++ toString events.length ++ " relevant events.")
          ({ s with chatHistory := resolveOk aiMsgId text ⟨events, data.description, 9 / 10⟩ s.chatHistory },
           log2)

/-- `handleSubmit` from `ChatInterface.tsx` as a state transformer: guards,
atomic append of the two turns, the upload-once stage (hash and upload only
when a file is attached and no `gcsUri` is stored yet), the inference call,
and resolution or catch.  The returned log records which external calls
were made. -/
def handleSubmit (env : SubmitEnv) (s : VideoSession) (prompt : String)
    (selectedFile : Option FileModel) (modelId : String) (now : ℕ) :
    VideoSession × SubmitLog :=
  if prompt = "" then (s, {}) else
  if selectedFile.isNone && !strTruthy s.gcsUri then
    (s, { errorMsg := some "Please upload a video." })
  else
    let aiMsgId := toString (now + 1)
    let s1 := { s with chatHistory := s.chatHistory ++ [mkUserMsg prompt now, mkPendingAiMsg now] }
    match selectedFile, strTruthy s.gcsUri with
    | some f, false =>
        (match env.hashResult f.content with
         | .error _ =>
             (catchResolve aiMsgId s1,
              { hashCalled := some f.content, errorMsg := some "Connection failed." })
         | .ok hex =>
             if env.uploadOk then
               let gcs := "gs://" ++ env.bucket ++ "/evidence/" ++ hex ++ ".mp4"
               let s2 := { s1 with videoUrl := some env.downloadUrl, videoName := f.name,
                                   hash := some hex, gcsUri := some gcs }
               runInference env s2 prompt modelId aiMsgId (some gcs)
                 { hashCalled := some f.content,
                   uploadedKey := some ("evidence/" ++ hex ++ ".mp4") }
             else
               (catchResolve aiMsgId s1,
                { hashCalled := some f.content,
                  uploadedKey := some ("evidence/" ++ hex ++ ".mp4"),
                  errorMsg := some "Connection failed." }))
    | _, _ => runInference env s1 prompt modelId aiMsgId s.gcsUri {}

/-- Number of concurrently pending assistant turns in a conversation. -/
def countPending (h : List ChatMessage) : ℕ :=
  (h.filter fun m => m.role == .ai && m.isLoading).length

/-- One `reader.read()` outcome while streaming the file: a chunk of
bytes, or a rejection of the read promise. -/
inductive ChunkRead where
  | chunk (bytes : List ℕ)
  | readErr
deriving DecidableEq, Repr

/-- The state exposed by the `useFileHash` hook. -/
structure HashHook where
  hash : Option String
  isHashing : Bool
  progress : ℕ
deriving DecidableEq, Repr

/-- The chunk loop of `generateHash`: feed each chunk into the incremental
accumulator until the stream is done, propagating a read failure. -/
def feedChunks : List ChunkRead → List ℕ → Except Unit (List ℕ)
  | [], acc => .ok acc
  | .chunk c :: rest, acc => feedChunks rest (acc ++ c)
  | .readErr :: _, _ => .error ()

/-- `generateHash` from `useFileHash.ts`: reset the exposed hash to null,
stream the file chunk by chunk into the digest accumulator, and only on a
complete run publish and return the hex digest; a failed read rethrows and
leaves the exposed hash null (the `finally` block clears `isHashing` and
forces progress to 100 either way).  `digest` is the composable hashing
primitive; the previous hook state is overwritten unconditionally. -/
def generateHash (digest : List ℕ → String) (st : HashHook) (stream : List ChunkRead) :
    HashHook × Except Unit String :=
  let st0 : HashHook := { st with hash := none, isHashing := true, progress := 0 }
  match feedChunks stream [] with
  | .ok bytes =>
      let hex := digest bytes
      ({ st0 with hash := some hex, isHashing := false, progress := 100 }, .ok hex)
  | .error _ =>
      ({ st0 with isHashing := false, progress := 100 }, .error ())

/-- The `savedEventIds` cache of `AnalysisView.tsx`: display index to
persisted document id, modelled as an association list read through
`cacheLookup`. -/
def cacheLookup (c : List (ℕ × String)) (i : ℕ) : Option String :=
  (c.find? fun p => p.1 == i).map (·.2)

/-- `delete newState[index]`. -/
def cacheRemove (c : List (ℕ × String)) (i : ℕ) : List (ℕ × String) :=
  c.filter fun p => p.1 != i

/-- `{ ...prev, [index]: newDocId }`. -/
def cacheInsert (c : List (ℕ × String)) (i : ℕ) (v : String) : List (ℕ × String) :=
  (i, v) :: cacheRemove c i

/-- The persistence collaborator of one toggle: the outcome of
`saveSpecificEvent` (a new document id, or a throw) and whether
`deleteSavedEvent` succeeds. -/
structure ToggleEnv where
  saveResult : Except Unit String
  deleteOk : Bool

/-- A remote bookmark operation requested during a toggle. -/
inductive RemoteOp where
  | createBookmark (e : TimelineEvent)
  | deleteBookmark (docId : String)
deriving DecidableEq, Repr

/-- `handleToggleSave` from `AnalysisView.tsx`: with a cached id, request
deletion of that document and, only if it succeeds, drop the cache entry;
without one, request creation from the event's fields and, only if it
succeeds, cache the returned id.  The remote call is awaited before any
cache mutation, so a throw leaves the cache untouched (the `catch` only
logs).  Returns the new cache and the requested remote operations. -/
def handleToggleSave (env : ToggleEnv) (cache : List (ℕ × String))
    (event : TimelineEvent) (index : ℕ) : List (ℕ × String) × List RemoteOp :=
  match cacheLookup cache index with
  | some docId =>
      if env.deleteOk then (cacheRemove cache index, [.deleteBookmark docId])
      else (cache, [.deleteBookmark docId])
  | none =>
      match env.saveResult with
      | .ok newId => (cacheInsert cache index newId, [.createBookmark event])
      | .error _ => (cache, [.createBookmark event])

end Sakshya

namespace Sakshya

/-! ### Helper lemmas -/

theorem map_eq_self_of {α : Type} (f : α → α) (l : List α) (h : ∀ x ∈ l, f x = x) :
    l.map f = l := by
  induction l with
  | nil => rfl
  | cons a t ih =>
      simp only [List.map_cons, h a (by simp)]
      rw [ih fun x hx => h x (by simp [hx])]

theorem find?_first {α : Type} (p : α → Bool) (pre : List α) (a : α) (post : List α)
    (hpre : ∀ x ∈ pre, p x = false) (ha : p a = true) :
    (pre ++ a :: post).find? p = some a := by
  induction pre with
  | nil => simpa using List.find?_cons_of_pos post ha
  | cons b t ih =>
      have hb : p b = false := hpre b (by simp)
      rw [List.cons_append, List.find?_cons_of_neg _ (by simp [hb])]
      exact ih fun x hx => hpre x (by simp [hx])

theorem isSome_map {α β : Type} (f : α → β) (o : Option α) : (o.map f).isSome = o.isSome := by
  cases o <;> rfl

theorem bmMatches_iff (s : SavedDoc) (e : TimelineEvent) :
    bmMatches s e = true ↔ specMatch s e := by
  unfold bmMatches specMatch
  cases hs : s.fromTimestamp <;> cases he : e.fromTimestamp <;>
    simp [JSNum.sub, JSNum.abs, JSNum.ltB]

theorem restore_getElem (events : List TimelineEvent) (savedDocs : List SavedDoc) (i : ℕ) :
    (restoreSavedState events savedDocs)[i]? =
      events[i]?.map fun e => (savedDocs.find? fun s => bmMatches s e).map (·.docId) := by
  simp [restoreSavedState]

/-! ### Claim C6: the timestamp normaliser -/

/-- Claim C6, counterexample: the claim says any input containing a
non-numeric component yields `0`, and in particular `normalize("abc") == 0`;
the code returns `Number("abc")`, which is NaN, not `0`. -/
theorem C6_counterexample : parseTimestampToSeconds (.str "abc") ≠ .num 0 := by decide

/-- Claim C6 as amended: the normaliser returns a numeric input as-is,
`h*3600 + m*60 + s` for three `:`-separated numeric parts, `m*60 + s` for
two, the part itself for one, and `0` for an empty or undefined input; but
an input with a non-numeric component evaluates to NaN (which propagates
through the arithmetic), not `0`. -/
theorem C6_normalizer :
    (∀ x : JSNum, parseTimestampToSeconds (.num x) = x) ∧
    parseTimestampToSeconds .undef = .num 0 ∧
    parseTimestampToSeconds (.str "") = .num 0 ∧
    parseTimestampToSeconds (.str "01:02:03") = .num 3723 ∧
    parseTimestampToSeconds (.str "02:05") = .num 125 ∧
    parseTimestampToSeconds (.str "7") = .num 7 ∧
    parseTimestampToSeconds (.num (.num 42)) = .num 42 ∧
    parseTimestampToSeconds (.str "abc") = .nan ∧
    parseTimestampToSeconds (.str "01:02:xy") = .nan ∧
    parseTimestampToSeconds (.str "1:abc") = .nan :=
  ⟨fun _ => rfl, by decide, by decide, by decide, by decide, by decide, by decide,
   by decide, by decide, by decide⟩

/-! ### Claim C1: the saved-event reconciler -/

/-- Claim C1: on session activation the reconciler marks a displayed event
(indexed by its position in the flat event list) saved exactly when some
fetched bookmark lies within `0.1` seconds of its `fromTime` and has an
identical summary; the first such match's document id is cached at that
index; and the concrete example of the spec reconciles to `"b1"`. -/
theorem C1_reconciler :
    (∀ (events : List TimelineEvent) (savedDocs : List SavedDoc) (i : ℕ)
        (e : TimelineEvent) (r : Option String),
        events[i]? = some e → (restoreSavedState events savedDocs)[i]? = some r →
        (r.isSome ↔ ∃ s ∈ savedDocs, specMatch s e)) ∧
    (∀ (events : List TimelineEvent) (savedDocs : List SavedDoc) (i : ℕ)
        (e : TimelineEvent) (pre : List SavedDoc) (s : SavedDoc) (post : List SavedDoc),
        events[i]? = some e → savedDocs = pre ++ s :: post →
        specMatch s e → (∀ x ∈ pre, ¬ specMatch x e) →
        (restoreSavedState events savedDocs)[i]? = some (some s.docId)) ∧
    restoreSavedState [⟨.num 10, .num 12, "A", .num (9 / 10)⟩]
      [⟨"b1", .num (201 / 20), "A"⟩] = [some "b1"] := by
  refine ⟨?_, ?_, by decide⟩
  · intro events savedDocs i e r he hr
    rw [restore_getElem, he] at hr
    have hr' : ((savedDocs.find? fun s => bmMatches s e).map (·.docId)) = r := by
      simpa using hr
    subst hr'
    rw [isSome_map, List.find?_isSome]
    constructor
    · rintro ⟨x, hx, hpx⟩
      exact ⟨x, hx, (bmMatches_iff x e).mp hpx⟩
    · rintro ⟨x, hx, hpx⟩
      exact ⟨x, hx, (bmMatches_iff x e).mpr hpx⟩
  · intro events savedDocs i e pre s post he hsd hs hpre
    have hfind : (pre ++ s :: post).find? (fun x => bmMatches x e) = some s :=
      find?_first (fun x => bmMatches x e) pre s post
        (fun x hx => by
          cases hb : bmMatches x e
          · exact hb
          · exact absurd ((bmMatches_iff x e).mp hb) (hpre x hx))
        ((bmMatches_iff s e).mpr hs)
    rw [restore_getElem, he, hsd]
    show some (((pre ++ s :: post).find? fun x => bmMatches x e).map (·.docId)) =
      some (some s.docId)
    rw [hfind]
    rfl

/-- Witness for C1: the first-match clause applied to the spec's concrete
example. -/
theorem C1_reconciler_witness :
    (restoreSavedState [⟨.num 10, .num 12, "A", .num (9 / 10)⟩]
      [⟨"b1", .num (201 / 20), "A"⟩])[0]? = some (some "b1") :=
  C1_reconciler.2.1 _ _ 0 ⟨.num 10, .num 12, "A", .num (9 / 10)⟩ []
    ⟨"b1", .num (201 / 20), "A"⟩ [] rfl rfl
    ⟨⟨201 / 20, 10, rfl, rfl, by decide⟩, rfl⟩ (by simp)

/-! ### Reduction lemmas for `handleSubmit` -/

theorem runInference_fields (env : SubmitEnv) (s : VideoSession)
    (prompt modelId aiMsgId : String) (storageUri : Option String) (log : SubmitLog) :
    (runInference env s prompt modelId aiMsgId storageUri log).1.hash = s.hash ∧
    (runInference env s prompt modelId aiMsgId storageUri log).1.videoUrl = s.videoUrl ∧
    (runInference env s prompt modelId aiMsgId storageUri log).1.videoName = s.videoName ∧
    (runInference env s prompt modelId aiMsgId storageUri log).1.gcsUri = s.gcsUri ∧
    (runInference env s prompt modelId aiMsgId storageUri log).1.status = s.status ∧
    (runInference env s prompt modelId aiMsgId storageUri log).1.events = s.events ∧
    (runInference env s prompt modelId aiMsgId storageUri log).2.hashCalled = log.hashCalled ∧
    (runInference env s prompt modelId aiMsgId storageUri log).2.uploadedKey = log.uploadedKey ∧
    (runInference env s prompt modelId aiMsgId storageUri log).2.inferRequest =
      some ⟨storageUri, prompt, modelId⟩ := by
  unfold runInference
  rcases env.inferResult with _ | ⟨ts, desc⟩
  · simp [catchResolve]
  · cases ts <;> simp [resolveOk]

theorem handleSubmit_noUpload (env : SubmitEnv) (s : VideoSession) (prompt : String)
    (selectedFile : Option FileModel) (modelId : String) (now : ℕ)
    (hp : prompt ≠ "") (hg : strTruthy s.gcsUri = true) :
    handleSubmit env s prompt selectedFile modelId now =
      runInference env
        { s with chatHistory := s.chatHistory ++ [mkUserMsg prompt now, mkPendingAiMsg now] }
        prompt modelId (toString (now + 1)) s.gcsUri {} := by
  unfold handleSubmit
  rw [if_neg hp]
  cases selectedFile <;> simp [hg]

theorem handleSubmit_uploadFail (env : SubmitEnv) (s : VideoSession) (prompt : String)
    (f : FileModel) (modelId : String) (now : ℕ) (hex : String)
    (hp : prompt ≠ "") (hg : strTruthy s.gcsUri = false)
    (hh : env.hashResult f.content = .ok hex) (hu : env.uploadOk = false) :
    handleSubmit env s prompt (some f) modelId now =
      (catchResolve (toString (now + 1))
        { s with chatHistory := s.chatHistory ++ [mkUserMsg prompt now, mkPendingAiMsg now] },
       { hashCalled := some f.content, uploadedKey := some ("evidence/" ++ hex ++ ".mp4"),
         errorMsg := some "Connection failed." }) := by
  unfold handleSubmit
  rw [if_neg hp]
  simp [hg, hh, hu]

/-- The pending assistant message after the catch branch resolved it. -/
def mkFailedAiMsg (now : ℕ) : ChatMessage :=
  ⟨toString (now + 1), .ai, "Failed to analyze video.", now, false, none⟩

theorem catchResolve_chatHistory (s : VideoSession) (prompt : String) (now : ℕ)
    (hfresh : ∀ m ∈ s.chatHistory ++ [mkUserMsg prompt now], m.id ≠ toString (now + 1)) :
    (catchResolve (toString (now + 1))
        { s with chatHistory := s.chatHistory ++ [mkUserMsg prompt now, mkPendingAiMsg now] }).chatHistory =
      s.chatHistory ++ [mkUserMsg prompt now, mkFailedAiMsg now] := by
  unfold catchResolve
  change (s.chatHistory ++ [mkUserMsg prompt now, mkPendingAiMsg now]).map
      (fun m => if m.id = toString (now + 1)
        then { m with isLoading := false, text := "Failed to analyze video." } else m) =
    s.chatHistory ++ [mkUserMsg prompt now, mkFailedAiMsg now]
  have h2 : s.chatHistory ++ [mkUserMsg prompt now, mkPendingAiMsg now] =
      (s.chatHistory ++ [mkUserMsg prompt now]) ++ [mkPendingAiMsg now] := by simp
  rw [h2, List.map_append, map_eq_self_of _ _ fun m hm => by rw [if_neg (hfresh m hm)]]
  simp [mkPendingAiMsg, mkFailedAiMsg]

/-! ### Claim C2: the upload-once invariant -/

/-- Claim C2: on a session whose `gcsUri` is already set, a prompt
submission neither re-hashes nor re-uploads: the digest and upload
collaborators are not called, the session's `hash`, `videoUrl`,
`videoName` and `gcsUri` are unchanged, and the inference request carries
the stored `gcsUri`. -/
theorem C2_upload_once (env : SubmitEnv) (s : VideoSession) (prompt : String)
    (selectedFile : Option FileModel) (modelId : String) (now : ℕ)
    (hp : prompt ≠ "") (hg : strTruthy s.gcsUri = true) :
    (handleSubmit env s prompt selectedFile modelId now).2.hashCalled = none ∧
    (handleSubmit env s prompt selectedFile modelId now).2.uploadedKey = none ∧
    (handleSubmit env s prompt selectedFile modelId now).1.hash = s.hash ∧
    (handleSubmit env s prompt selectedFile modelId now).1.videoUrl = s.videoUrl ∧
    (handleSubmit env s prompt selectedFile modelId now).1.videoName = s.videoName ∧
    (handleSubmit env s prompt selectedFile modelId now).1.gcsUri = s.gcsUri ∧
    (handleSubmit env s prompt selectedFile modelId now).2.inferRequest =
      some ⟨s.gcsUri, prompt, modelId⟩ := by
  rw [handleSubmit_noUpload env s prompt selectedFile modelId now hp hg]
  have h := runInference_fields env
    { s with chatHistory := s.chatHistory ++ [mkUserMsg prompt now, mkPendingAiMsg now] }
    prompt modelId (toString (now + 1)) s.gcsUri {}
  exact ⟨h.2.2.2.2.2.2.1, h.2.2.2.2.2.2.2.1, h.1, h.2.1, h.2.2.1, h.2.2.2.1,
    h.2.2.2.2.2.2.2.2⟩

/-- Concrete environment and session for the `handleSubmit` witnesses: a
session that already holds a stored, content-addressed video. -/
def wEnv : SubmitEnv :=
  ⟨fun _ => .ok "newhash", true, "https://dl/new", "bkt", .ok ⟨some [], some "desc"⟩⟩

def wSession : VideoSession :=
  ⟨"s1", some "https://dl/old", "old.mp4", some "oldhash", .idle,
   [⟨.num 1, .num 2, "prior", .num 1⟩], some "gs://bkt/evidence/oldhash.mp4", []⟩

/-- Witness for C2 at a concrete session with a stored video. -/
theorem C2_upload_once_witness :
    (handleSubmit wEnv wSession "find the car" none "m" 7).2.hashCalled = none ∧
    (handleSubmit wEnv wSession "find the car" none "m" 7).2.uploadedKey = none ∧
    (handleSubmit wEnv wSession "find the car" none "m" 7).1.hash = wSession.hash ∧
    (handleSubmit wEnv wSession "find the car" none "m" 7).1.videoUrl = wSession.videoUrl ∧
    (handleSubmit wEnv wSession "find the car" none "m" 7).1.videoName = wSession.videoName ∧
    (handleSubmit wEnv wSession "find the car" none "m" 7).1.gcsUri = wSession.gcsUri ∧
    (handleSubmit wEnv wSession "find the car" none "m" 7).2.inferRequest =
      some ⟨wSession.gcsUri, "find the car", "m"⟩ :=
  C2_upload_once wEnv wSession "find the car" none "m" 7 (by decide) (by decide)

/-! ### Claim C3: a newly attached file after the storage key is set -/

def c3File : FileModel := ⟨"new.mp4", [1, 2, 3]⟩

/-- Claim C3, counterexample: with the storage key set, a submission with
a newly attached file of different content does **not** hash the file and
does **not** produce a new fingerprint — the digest collaborator (which
would return `"newhash"` for it) is never called and the session keeps
`"oldhash"`. -/
theorem C3_counterexample :
    (handleSubmit wEnv wSession "second prompt" (some c3File) "m" 9).2.hashCalled = none ∧
    (handleSubmit wEnv wSession "second prompt" (some c3File) "m" 9).1.hash = some "oldhash" ∧
    wEnv.hashResult c3File.content = .ok "newhash" ∧
    some "oldhash" ≠ some "newhash" := by decide

/-- Claim C3 as amended: once the session has a storage key, a newly
attached file on a subsequent submission is ignored — it is not hashed,
the session keeps its prior fingerprint, and the session's prior events
are preserved. -/
theorem C3_new_file_ignored (env : SubmitEnv) (s : VideoSession) (prompt : String)
    (f : FileModel) (modelId : String) (now : ℕ)
    (hp : prompt ≠ "") (hg : strTruthy s.gcsUri = true) :
    (handleSubmit env s prompt (some f) modelId now).2.hashCalled = none ∧
    (handleSubmit env s prompt (some f) modelId now).1.hash = s.hash ∧
    (handleSubmit env s prompt (some f) modelId now).1.events = s.events := by
  rw [handleSubmit_noUpload env s prompt (some f) modelId now hp hg]
  have h := runInference_fields env
    { s with chatHistory := s.chatHistory ++ [mkUserMsg prompt now, mkPendingAiMsg now] }
    prompt modelId (toString (now + 1)) s.gcsUri {}
  exact ⟨h.2.2.2.2.2.2.1, h.1, h.2.2.2.2.2.1⟩

/-- Witness for C3 as amended. -/
theorem C3_new_file_ignored_witness :
    (handleSubmit wEnv wSession "second prompt" (some c3File) "m" 9).2.hashCalled = none ∧
    (handleSubmit wEnv wSession "second prompt" (some c3File) "m" 9).1.hash = wSession.hash ∧
    (handleSubmit wEnv wSession "second prompt" (some c3File) "m" 9).1.events =
      wSession.events :=
  C3_new_file_ignored wEnv wSession "second prompt" c3File "m" 9 (by decide) (by decide)

/-! ### Claim C4: concurrently pending assistant turns -/

def c4Start : VideoSession :=
  ⟨"s1", some "https://dl/v", "v.mp4", some "h", .idle, [], some "gs://b/evidence/h.mp4", []⟩

/-- Claim C4 is violated by the code: the synchronous prefix of
`handleSubmit` checks only that the prompt is non-empty and evidence is
present — not whether a turn is already pending (the Enter-key handler
calls `handleSubmit` without the `isProcessing` guard the submit button
has).  Submitting again while the first assistant turn is still pending
yields two concurrently pending assistant turns. -/
theorem C4_double_pending :
    countPending (submitStart c4Start "find the suspect" none 100).chatHistory = 1 ∧
    countPending (submitStart (submitStart c4Start "find the suspect" none 100)
      "when does he leave" none 200).chatHistory = 2 := by decide

/-! ### Claim C5: failure handling during a submission -/

def c5Env : SubmitEnv := ⟨fun _ => .ok "h", true, "https://dl/x", "bkt", .error ()⟩

/-- Claim C5, counterexample: on a failed inference call the pending turn
is resolved with the failure message and an error notice is surfaced, but
the session's status stays where it was (`idle` here) — it is **not**
moved to `error`. -/
theorem C5_counterexample :
    (handleSubmit c5Env wSession "p" none "m" 3).2.errorMsg = some "Connection failed." ∧
    (handleSubmit c5Env wSession "p" none "m" 3).1.status = Status.idle ∧
    Status.idle ≠ Status.error := by decide

/-- Claim C5 as amended: when the upload or the inference call fails, the
pending assistant turn is resolved in place with the visible failure
message, every prior turn and every prior timeline event is preserved
unchanged, and an error notice is surfaced — but the session's status is
left unchanged rather than moved to `error`.  (The freshness hypothesis
rules out id collisions between the new placeholder and earlier turns.) -/
theorem C5_failure_handling :
    (∀ (env : SubmitEnv) (s : VideoSession) (prompt : String)
        (selectedFile : Option FileModel) (modelId : String) (now : ℕ),
        prompt ≠ "" → strTruthy s.gcsUri = true → env.inferResult = .error () →
        (∀ m ∈ s.chatHistory ++ [mkUserMsg prompt now], m.id ≠ toString (now + 1)) →
        (handleSubmit env s prompt selectedFile modelId now).1.status = s.status ∧
        (handleSubmit env s prompt selectedFile modelId now).1.events = s.events ∧
        (handleSubmit env s prompt selectedFile modelId now).1.chatHistory =
          s.chatHistory ++ [mkUserMsg prompt now, mkFailedAiMsg now] ∧
        (handleSubmit env s prompt selectedFile modelId now).2.errorMsg =
          some "Connection failed.") ∧
    (∀ (env : SubmitEnv) (s : VideoSession) (prompt : String) (f : FileModel)
        (modelId : String) (now : ℕ) (hex : String),
        prompt ≠ "" → strTruthy s.gcsUri = false →
        env.hashResult f.content = .ok hex → env.uploadOk = false →
        (∀ m ∈ s.chatHistory ++ [mkUserMsg prompt now], m.id ≠ toString (now + 1)) →
        (handleSubmit env s prompt (some f) modelId now).1.status = s.status ∧
        (handleSubmit env s prompt (some f) modelId now).1.events = s.events ∧
        (handleSubmit env s prompt (some f) modelId now).1.hash = s.hash ∧
        (handleSubmit env s prompt (some f) modelId now).1.chatHistory =
          s.chatHistory ++ [mkUserMsg prompt now, mkFailedAiMsg now] ∧
        (handleSubmit env s prompt (some f) modelId now).2.errorMsg =
          some "Connection failed.") := by
  constructor
  · intro env s prompt selectedFile modelId now hp hg hinf hfresh
    rw [handleSubmit_noUpload env s prompt selectedFile modelId now hp hg]
    unfold runInference
    rw [hinf]
    refine ⟨rfl, rfl, ?_, rfl⟩
    exact catchResolve_chatHistory s prompt now hfresh
  · intro env s prompt f modelId now hex hp hg hh hu hfresh
    rw [handleSubmit_uploadFail env s prompt f modelId now hex hp hg hh hu]
    refine ⟨rfl, rfl, rfl, ?_, rfl⟩
    exact catchResolve_chatHistory s prompt now hfresh

/-- Witness for C5 as amended, at a failing inference call. -/
theorem C5_failure_handling_witness :
    (handleSubmit c5Env wSession "p" none "m" 3).1.status = wSession.status ∧
    (handleSubmit c5Env wSession "p" none "m" 3).1.events = wSession.events ∧
    (handleSubmit c5Env wSession "p" none "m" 3).1.chatHistory =
      wSession.chatHistory ++ [mkUserMsg "p" 3, mkFailedAiMsg 3] ∧
    (handleSubmit c5Env wSession "p" none "m" 3).2.errorMsg = some "Connection failed." :=
  C5_failure_handling.1 c5Env wSession "p" none "m" 3 (by decide) (by decide) rfl (by decide)

/-! ### Claim C7: the `0 ≤ fromTime ≤ toTime` invariant -/

def c7BadInit : RawFinding :=
  ⟨.num (.num 10), .undef, .undef, .num (.num 5), .undef, none, none, none⟩

def c7BadFU : RawFinding :=
  ⟨.undef, .undef, .num (.num (-5)), .undef, .num (.num 3), none, none, none⟩

/-- Claim C7, counterexample: normalisation clamps nothing, so a raw
finding with `start = 10, end = 5` yields an event with
`fromTimestamp > toTimestamp` on the initial path, and `from = -5` yields
a negative `fromTimestamp` on the follow-up path. -/
theorem C7_counterexample :
    ordOK (formatEvent c7BadInit) = false ∧ ordOK (formatEventFU c7BadFU) = false := by
  decide

/-- Claim C7 as amended: a normalised TimelineEvent satisfies
`0 ≤ fromTimestamp ≤ toTimestamp` when the normalised time values are
rationals in that order — the normalisers enforce no ordering or bounds of
their own, so the invariant holds only in that case. -/
theorem C7_order_conditional :
    (∀ (t : RawFinding) (qf qt : ℚ),
        parseTimestampToSeconds (jsOr t.start (jsOr t.timestamp t.fromField)) = .num qf →
        parseTimestampToSeconds (jsOr t.endField t.toField) = .num qt →
        0 ≤ qf → qf ≤ qt → ordOK (formatEvent t) = true) ∧
    (∀ (t : RawFinding) (qf qt : ℚ),
        fuTime t.fromField = .num qf → fuTime t.toField = .num qt →
        0 ≤ qf → qf ≤ qt → ordOK (formatEventFU t) = true) := by
  constructor
  · intro t qf qt hf ht h0 hle
    have h1 : (formatEvent t).fromTimestamp = .num qf := hf
    have h2 : (formatEvent t).toTimestamp = .num qt := ht
    unfold ordOK
    rw [h1, h2]
    exact decide_eq_true ⟨h0, hle⟩
  · intro t qf qt hf ht h0 hle
    have h1 : (formatEventFU t).fromTimestamp = .num qf := hf
    have h2 : (formatEventFU t).toTimestamp = .num qt := ht
    unfold ordOK
    rw [h1, h2]
    exact decide_eq_true ⟨h0, hle⟩

def c7Good : RawFinding :=
  ⟨.num (.num 2), .undef, .undef, .num (.num 5), .undef, none, none, none⟩

/-- Witness for C7 as amended, at a well-ordered raw finding. -/
theorem C7_order_conditional_witness : ordOK (formatEvent c7Good) = true :=
  C7_order_conditional.1 c7Good 2 5 rfl rfl (by decide) (by decide)

/-! ### Claim C8: the save toggle and its cache atomicity -/

theorem cacheLookup_cons (p : ℕ × String) (t : List (ℕ × String)) (j : ℕ) :
    cacheLookup (p :: t) j = if p.1 = j then some p.2 else cacheLookup t j := by
  by_cases h : p.1 = j
  · simp [cacheLookup, List.find?_cons_of_pos, h]
  · simp [cacheLookup, List.find?_cons_of_neg, h]

theorem cacheLookup_remove (c : List (ℕ × String)) (i j : ℕ) :
    cacheLookup (cacheRemove c i) j = if j = i then none else cacheLookup c j := by
  induction c with
  | nil => simp [cacheLookup, cacheRemove]
  | cons p t ih =>
      by_cases hpi : p.1 = i
      · have h1 : cacheRemove (p :: t) i = cacheRemove t i := by
          simp [cacheRemove, List.filter_cons, hpi]
        rw [h1, ih, cacheLookup_cons]
        by_cases hji : j = i
        · simp [hji]
        · rw [if_neg hji, if_neg hji, if_neg fun h => hji (h.symm.trans hpi)]
      · have h1 : cacheRemove (p :: t) i = p :: cacheRemove t i := by
          simp [cacheRemove, List.filter_cons, hpi]
        rw [h1, cacheLookup_cons, cacheLookup_cons, ih]
        by_cases hpj : p.1 = j
        · rw [if_pos hpj, if_pos hpj, if_neg fun hji => hpi (hpj.trans hji)]
        · rw [if_neg hpj, if_neg hpj]

theorem cacheLookup_insert (c : List (ℕ × String)) (i j : ℕ) (v : String) :
    cacheLookup (cacheInsert c i v) j = if j = i then some v else cacheLookup c j := by
  rw [cacheInsert, cacheLookup_cons]
  by_cases hji : j = i
  · simp [hji]
  · rw [if_neg fun h => hji h.symm, if_neg hji, cacheLookup_remove, if_neg hji]

/-- Claim C8: toggling save at an index with no cached id requests exactly
one bookmark creation from the event's fields and caches the returned id
at that index (touching no other entry); toggling with a cached id
requests deletion of exactly that bookmark and clears only that entry; and
a throwing remote call leaves the cache completely unchanged. -/
theorem C8_toggle_save :
    (∀ (env : ToggleEnv) (cache : List (ℕ × String)) (e : TimelineEvent) (i : ℕ)
        (newId : String),
        cacheLookup cache i = none → env.saveResult = .ok newId →
        (handleToggleSave env cache e i).2 = [.createBookmark e] ∧
        cacheLookup (handleToggleSave env cache e i).1 i = some newId ∧
        (∀ j, j ≠ i →
          cacheLookup (handleToggleSave env cache e i).1 j = cacheLookup cache j)) ∧
    (∀ (env : ToggleEnv) (cache : List (ℕ × String)) (e : TimelineEvent) (i : ℕ)
        (d : String),
        cacheLookup cache i = some d → env.deleteOk = true →
        (handleToggleSave env cache e i).2 = [.deleteBookmark d] ∧
        cacheLookup (handleToggleSave env cache e i).1 i = none ∧
        (∀ j, j ≠ i →
          cacheLookup (handleToggleSave env cache e i).1 j = cacheLookup cache j)) ∧
    (∀ (env : ToggleEnv) (cache : List (ℕ × String)) (e : TimelineEvent) (i : ℕ),
        env.saveResult = .error () → env.deleteOk = false →
        (handleToggleSave env cache e i).1 = cache) := by
  refine ⟨?_, ?_, ?_⟩
  · intro env cache e i newId hl hs
    unfold handleToggleSave
    rw [hl, hs]
    refine ⟨rfl, ?_, ?_⟩
    · show cacheLookup (cacheInsert cache i newId) i = some newId
      rw [cacheLookup_insert]
      simp
    · intro j hj
      show cacheLookup (cacheInsert cache i newId) j = cacheLookup cache j
      rw [cacheLookup_insert, if_neg hj]
  · intro env cache e i d hl hd
    unfold handleToggleSave
    rw [hl, hd]
    refine ⟨rfl, ?_, ?_⟩
    · show cacheLookup (cacheRemove cache i) i = none
      rw [cacheLookup_remove]
      simp
    · intro j hj
      show cacheLookup (cacheRemove cache i) j = cacheLookup cache j
      rw [cacheLookup_remove, if_neg hj]
  · intro env cache e i hs hd
    unfold handleToggleSave
    cases hl : cacheLookup cache i
    · rw [hs]
    · rw [hd]
      rfl

/-- Witness for C8: creating a bookmark on an empty cache. -/
theorem C8_toggle_save_witness :
    (handleToggleSave ⟨.ok "d1", true⟩ [] ⟨.num 1, .num 2, "x", .num 1⟩ 0).2 =
      [.createBookmark ⟨.num 1, .num 2, "x", .num 1⟩] ∧
    cacheLookup (handleToggleSave ⟨.ok "d1", true⟩ [] ⟨.num 1, .num 2, "x", .num 1⟩ 0).1 0 =
      some "d1" :=
  ⟨(C8_toggle_save.1 ⟨.ok "d1", true⟩ [] ⟨.num 1, .num 2, "x", .num 1⟩ 0 "d1" rfl rfl).1,
   (C8_toggle_save.1 ⟨.ok "d1", true⟩ [] ⟨.num 1, .num 2, "x", .num 1⟩ 0 "d1" rfl rfl).2.1⟩

/-! ### Claim C9: fingerprinting failure -/

theorem feedChunks_readErr (stream : List ChunkRead) (acc : List ℕ)
    (h : ChunkRead.readErr ∈ stream) : feedChunks stream acc = .error () := by
  induction stream generalizing acc with
  | nil => cases h
  | cons c rest ih =>
      cases c with
      | readErr => rfl
      | chunk b =>
          rcases List.mem_cons.mp h with heq | h'
          · simp at heq
          · exact ih (acc ++ b) h'

/-- Claim C9: if any chunk read fails during fingerprinting,
`generateHash` rejects and never reports a completed digest — the exposed
hash state is null after the failed run (even if a previous run had
published one), so partial progress is not observable as a finished
fingerprint. -/
theorem C9_hash_read_error (digest : List ℕ → String) (st : HashHook)
    (stream : List ChunkRead) (h : ChunkRead.readErr ∈ stream) :
    (generateHash digest st stream).2 = .error () ∧
    (generateHash digest st stream).1.hash = none ∧
    (generateHash digest st stream).1.isHashing = false := by
  unfold generateHash
  rw [feedChunks_readErr stream [] h]
  exact ⟨rfl, rfl, rfl⟩

/-- Witness for C9: a stream whose second read fails, on a hook that had
previously published a digest. -/
theorem C9_hash_read_error_witness :
    (generateHash (fun _ => "deadbeef") ⟨some "stale", false, 100⟩
      [.chunk [1, 2], .readErr]).2 = .error () ∧
    (generateHash (fun _ => "deadbeef") ⟨some "stale", false, 100⟩
      [.chunk [1, 2], .readErr]).1.hash = none ∧
    (generateHash (fun _ => "deadbeef") ⟨some "stale", false, 100⟩
      [.chunk [1, 2], .readErr]).1.isHashing = false :=
  C9_hash_read_error (fun _ => "deadbeef") ⟨some "stale", false, 100⟩
    [.chunk [1, 2], .readErr] (by decide)

/-! ### Claim C10: the confidence fallback swallows zero -/

/-- Claim C10: a raw finding whose `confidence` is absent or falsy
(`0`, or NaN) is normalised to the hard-coded fallback — `0.9` on the
initial-analysis path and `1.0` on the follow-up path — never to `0`, so a
reported zero-confidence finding is indistinguishable from a missing one. -/
theorem C10_conf_fallback (t : RawFinding)
    (h : t.confidence = none ∨ t.confidence = some (.num 0) ∨ t.confidence = some .nan) :
    (formatEvent t).confidence = .num (9 / 10) ∧
    (formatEventFU t).confidence = .num 1 ∧
    (formatEvent t).confidence ≠ .num 0 ∧
    (formatEventFU t).confidence ≠ .num 0 := by
  have h1 : confOr t.confidence (9 / 10) = .num (9 / 10) := by
    rcases h with h | h | h <;> simp [confOr, h, JSNum.truthy]
  have h2 : confOr t.confidence 1 = .num 1 := by
    rcases h with h | h | h <;> simp [confOr, h, JSNum.truthy]
  refine ⟨h1, h2, ?_, ?_⟩
  · have h3 : (formatEvent t).confidence = .num (9 / 10) := h1
    rw [h3]
    decide
  · have h3 : (formatEventFU t).confidence = .num 1 := h2
    rw [h3]
    decide

def c10Zero : RawFinding := ⟨.undef, .undef, .undef, .undef, .undef, none, none, some (.num 0)⟩

/-- Witness for C10: a raw finding reporting confidence exactly `0`. -/
theorem C10_conf_fallback_witness :
    (formatEvent c10Zero).confidence = .num (9 / 10) ∧
    (formatEventFU c10Zero).confidence = .num 1 ∧
    (formatEvent c10Zero).confidence ≠ .num 0 ∧
    (formatEventFU c10Zero).confidence ≠ .num 0 :=
  C10_conf_fallback c10Zero (Or.inr (Or.inl rfl))

end Sakshya
